import Mathlib

/-!
Formal model of the playback-synchronized highlighting, slide-chunking,
WAV-wrapping and session-state logic of `src/components/Conversation.tsx`
(Audio-Text-Sync-Highlight).  Times are modelled as rationals, JS strings as
Lean strings / `List Char`, and the external AI calls as oracles passed in as
function arguments.
-/

/-- The `Status` union type of `Conversation.tsx`. -/
inductive Status where
  | idle
  | reading
  | transcribing
  | detecting_chords
  | exporting
  | done
  | error
deriving DecidableEq

/-- `WordSegment` from `Conversation.tsx`: a word with its timestamps. -/
structure WordSegment where
  word : String
  start_time : ℚ
  end_time : ℚ
deriving DecidableEq

/-- `TranscriptData` from `Conversation.tsx`. -/
structure TranscriptData where
  transcript : String
  word_segments : List WordSegment
deriving DecidableEq

/-- The predicate of the `findIndex`/`isActive` checks in the highlight effect
and `renderTranscript`: `currentTime >= segment.start_time && currentTime <
segment.end_time`. -/
def segActive (t : ℚ) (s : WordSegment) : Bool :=
  decide (s.start_time ≤ t) && decide (t < s.end_time)

/-- `transcriptData.word_segments.findIndex(...)` from the highlight/scroll
effect; JS `-1` is modelled as `none`. -/
def activeSegmentIndex (segs : List WordSegment) (t : ℚ) : Option Nat :=
  segs.findIdx? (segActive t)

/-- Active-segment lookup at the level of the whole (optional) transcript:
the effect returns early (no active word) when `transcriptData` is `null`. -/
def activeIdxOf (td : Option TranscriptData) (t : ℚ) : Option Nat :=
  match td with
  | none => none
  | some d => activeSegmentIndex d.word_segments t

/-- JS regex `\s` character class (whitespace as used by `.match` and
`String.prototype.trim`): space, tab, LF, VT, FF, CR, NBSP, the Unicode
space separators, line/paragraph separators and the BOM. -/
def isWsChar (c : Char) : Bool :=
  c = ' ' || c = '\t' || c = '\n' || c = '\x0b' || c = '\x0c' || c = '\r' ||
  c = ' ' || c = ' ' || (' ' ≤ c && c ≤ ' ') ||
  c = ' ' || c = ' ' || c = ' ' || c = ' ' ||
  c = '　' || c = '﻿'

/-- JS regex `.` (no `s` flag): any character except a line terminator. -/
def isDotChar (c : Char) : Bool :=
  !(c = '\n' || c = '\r' || c = ' ' || c = ' ')

/-- One backtracking attempt of `.{1,budget}(\s|$)` at the current position
with exactly `k` characters consumed by `.{1,budget}`: succeeds when the
first `k` characters exist and are all `.`-matchable and the position after
them is a whitespace character (consumed into the match) or the end of the
string.  Returns the match text and the remaining input. -/
def tryLen (cs : List Char) (k : Nat) : Option (List Char × List Char) :=
  if k ≤ cs.length ∧ (cs.take k).all isDotChar = true then
    match cs.drop k with
    | [] => some (cs.take k, [])
    | c :: rest => if isWsChar c then some (cs.take k ++ [c], rest) else none
  else none

/-- Greedy matching of `.{1,b}(\s|$)` at the current position: try the
longest repetition count first and backtrack downwards, as a JS regex engine
does. -/
def matchAt (cs : List Char) : Nat → Option (List Char × List Char)
  | 0 => none
  | b + 1 =>
    match tryLen cs (b + 1) with
    | some res => some res
    | none => matchAt cs b

/-- Global matching of `.{1,b}(\s|$)` over the input, as in
`transcript.match(/.{1,150}(\s|$)/g) || []`: collect successive matches,
advancing one character past positions where no match starts.  The fuel
argument is instantiated with the input length, which always suffices since
every step consumes at least one character. -/
def regexChunksFuel : Nat → List Char → Nat → List (List Char)
  | 0, _, _ => []
  | _ + 1, [], _ => []
  | f + 1, c :: rest, b =>
    match matchAt (c :: rest) b with
    | some (m, r) => m :: regexChunksFuel f r b
    | none => regexChunksFuel f rest b

/-- All matches of `.{1,b}(\s|$)` in `cs`. -/
def regexChunks (cs : List Char) (b : Nat) : List (List Char) :=
  regexChunksFuel cs.length cs b

/-- `const chunks = transcriptData.transcript.match(/.{1,150}(\s|$)/g) || []`
from `handleExportToPowerPoint`, generalized over the character budget. -/
def chunkTranscript (s : String) (b : Nat) : List String :=
  (regexChunks s.data b).map String.mk

/-- JS `String.prototype.trim` on a character list: drop whitespace from both
ends (trimming the end first; the order does not matter). -/
def trimChars (l : List Char) : List Char :=
  ((l.reverse.dropWhile isWsChar).reverse).dropWhile isWsChar

/-- The chunks as they are placed on the slides: `chunk.trim()` in
`slide.addText(chunk.trim(), ...)`. -/
def trimmedChunks (s : String) (b : Nat) : List String :=
  (chunkTranscript s b).map (fun c => String.mk (trimChars c.data))

/-- Two little-endian bytes of a 16-bit value, as written by
`DataView.setUint16(_, v, true)`. -/
def le16 (n : Nat) : List Nat :=
  [n % 256, n / 256 % 256]

/-- Four little-endian bytes of a 32-bit value, as written by
`DataView.setUint32(_, v, true)`. -/
def le32 (n : Nat) : List Nat :=
  [n % 256, n / 256 % 256, n / 65536 % 256, n / 16777216 % 256]

/-- Four big-endian bytes of a 32-bit value, as written by
`DataView.setUint32(_, v, false)` for the `RIFF`, `WAVE`, `fmt ` and `data`
tags. -/
def be32 (n : Nat) : List Nat :=
  [n / 16777216 % 256, n / 65536 % 256, n / 256 % 256, n % 256]

/-- The two little-endian bytes written by `DataView.setInt16(_, x, true)`:
the 16-bit two's-complement representation of the sample. -/
def int16LEBytes (x : Int) : List Nat :=
  le16 (x % 65536).toNat

/-- The sample area written by the
`for (let i = 0; ...) view.setInt16(44 + i * 2, pcmData[i], true)` loop. -/
def pcmBytes : List Int → List Nat
  | [] => []
  | x :: rest => int16LEBytes x ++ pcmBytes rest

/-- The 44-byte WAV header written field by field in `handleGenerateAudio`,
with `sampleRate = 24000`, `numChannels = 1`, `bytesPerSample = 2` and the
given data size. -/
def wavHeader (dataSize : Nat) : List Nat :=
  be32 0x52494646 ++
  le32 (36 + dataSize) ++
  be32 0x57415645 ++
  be32 0x666d7420 ++
  le32 16 ++
  le16 1 ++
  le16 1 ++
  le32 24000 ++
  le32 (24000 * 1 * 2) ++
  le16 (1 * 2) ++
  le16 (2 * 8) ++
  be32 0x64617461 ++
  le32 dataSize

/-- The complete WAV byte buffer built in `handleGenerateAudio` for the given
PCM samples (`dataSize = pcmData.length * bytesPerSample`). -/
def wavBytes (pcm : List Int) : List Nat :=
  wavHeader (pcm.length * 2) ++ pcmBytes pcm

/-- Value of a 2-byte little-endian field. -/
def decodeLE16 (l : List Nat) : Nat :=
  l.getD 0 0 + 256 * l.getD 1 0

/-- Value of a 4-byte little-endian field. -/
def decodeLE32 (l : List Nat) : Nat :=
  l.getD 0 0 + 256 * l.getD 1 0 + 65536 * l.getD 2 0 + 16777216 * l.getD 3 0

/-- The visible content of one exported slide: the generated background image
and the trimmed chunk text. -/
structure SlideModel where
  image : Option String
  text : String
deriving DecidableEq

/-- The `for (const [index, chunk] of chunks.entries())` loop of
`handleExportToPowerPoint`.  The image-generation oracle gives the outcome of
the two AI calls for each chunk index; `none` means the call throws.  A
thrown error propagates out of the loop (there is no per-chunk handler), so
the result of the whole loop is `none` and `pres.writeFile` is never
reached. -/
def exportLoop (oracle : Nat → Option String) : List String → Nat → Option (List SlideModel)
  | [], _ => some []
  | chunk :: rest, idx =>
    match oracle idx with
    | none => none
    | some img =>
      match exportLoop oracle rest (idx + 1) with
      | none => none
      | some slides =>
        some ({ image := some img, text := String.mk (trimChars chunk.data) } :: slides)

/-- Observable outcome of `handleExportToPowerPoint` when a transcript is
present: the final status, the surfaced error message, and the written deck
(`none` when `writeFile` is never reached because the `catch` block ran). -/
def handleExport (d : TranscriptData) (oracle : Nat → Option String) :
    Status × Option String × Option (List SlideModel) :=
  match exportLoop oracle (chunkTranscript d.transcript 150) 0 with
  | none => (Status.error, some "Failed to generate PowerPoint. Please try again.", none)
  | some slides => (Status.done, none, some slides)

/-- JS `name.split('.')` on a character list. -/
def splitOnDot : List Char → List (List Char)
  | [] => [[]]
  | c :: rest =>
    let groups := splitOnDot rest
    if c = '.' then [] :: groups
    else (c :: groups.headD []) :: groups.tail

/-- The download file name built in `handleDownloadTranscript`:
`file.name.split('.')[0] + "_transcript.txt"`. -/
def downloadFileName (name : List Char) : List Char :=
  (splitOnDot name).headD [] ++ "_transcript.txt".data

/-- The blob content of the transcript download:
`new Blob([transcriptData.transcript])`. -/
def downloadContent (td : TranscriptData) : String :=
  td.transcript

/-- The two TTS target languages, also used for the
`isGeneratingAudio: 'english' | 'persian' | false` state (modelled as
`Option TtsLang`). -/
inductive TtsLang where
  | english
  | persian
deriving DecidableEq

/-- The React state of the `Conversation` component. -/
structure AppState where
  status : Status
  error : Option String
  file : Option String
  audioUrl : Option String
  transcriptData : Option TranscriptData
  chords : Option String
  currentTime : ℚ
  exportProgress : Nat
  totalSlides : Nat
  persianTranscript : Option String
  isTranslating : Bool
  isGeneratingAudio : Option TtsLang
  generatedEnglishAudioUrl : Option String
  generatedPersianAudioUrl : Option String

/-- The initial `useState` values of the component. -/
def initState : AppState where
  status := Status.idle
  error := none
  file := none
  audioUrl := none
  transcriptData := none
  chords := none
  currentTime := 0
  exportProgress := 0
  totalSlides := 0
  persianTranscript := none
  isTranslating := false
  isGeneratingAudio := none
  generatedEnglishAudioUrl := none
  generatedPersianAudioUrl := none

/-- `resetState` from `Conversation.tsx`: every state field is set back to
its initial value (the object-URL revocations have no counterpart in the
state model). -/
def resetState (s : AppState) : AppState :=
  { s with
    status := Status.idle
    error := none
    file := none
    audioUrl := none
    transcriptData := none
    chords := none
    currentTime := 0
    exportProgress := 0
    totalSlides := 0
    persianTranscript := none
    isTranslating := false
    isGeneratingAudio := none
    generatedEnglishAudioUrl := none
    generatedPersianAudioUrl := none }

/-- Outcome of the chord-detection AI call in `detectChords`: the missing-key
throw happens before `setStatus('detecting_chords')`, any later failure after
it, and on success the model replies with free text. -/
inductive ChordOutcome where
  | missingKey
  | apiFailure
  | success (text : String)

/-- The state transition of `detectChords`: failures are caught and only
logged; on success the trimmed reply is stored unless it is empty or reads
`"none"` case-insensitively. -/
def detectChordsModel (s : AppState) (o : ChordOutcome) : AppState :=
  match o with
  | ChordOutcome.missingKey => s
  | ChordOutcome.apiFailure => { s with status := Status.detecting_chords }
  | ChordOutcome.success txt =>
    let s1 := { s with status := Status.detecting_chords }
    let t := String.mk (trimChars txt.data)
    if String.mk (t.data.map Char.toLower) ≠ "none" ∧ 0 < t.length then
      { s1 with chords := some t }
    else s1

/-- The tail of `handleFile` after a successful transcription:
`await detectChords(...); setStatus('done')`. -/
def afterTranscription (s : AppState) (o : ChordOutcome) : AppState :=
  { detectChordsModel s o with status := Status.done }

/-- A rendered vertical extent, as obtained from
`getBoundingClientRect()`. -/
structure Rect where
  top : ℚ
  bottom : ℚ
deriving DecidableEq

/-- The auto-scroll effect of `Conversation.tsx`: on a tick at time `t` it
calls `scrollIntoView` exactly when a transcript is present, some word
segment is active, its rendered span is found, and the span's box sticks out
of the container's box (`elementRect.top < containerRect.top ||
elementRect.bottom > containerRect.bottom`).  `er` maps a segment index to
the rect of its rendered span (`none` when the DOM query finds nothing). -/
def scrollFires (td : Option TranscriptData) (t : ℚ) (er : Nat → Option Rect)
    (cr : Rect) : Bool :=
  match td with
  | none => false
  | some d =>
    match activeSegmentIndex d.word_segments t with
    | none => false
    | some i =>
      match er i with
      | none => false
      | some r => decide (r.top < cr.top) || decide (r.bottom > cr.bottom)

/-! ## Helper lemmas -/

/-- `dropWhile` never lengthens a list. -/
theorem length_dropWhile_le (p : Char → Bool) (l : List Char) :
    (l.dropWhile p).length ≤ l.length :=
  (List.dropWhile_sublist p).length_le

/-- Trimming never lengthens a list. -/
theorem trimChars_length_le (l : List Char) : (trimChars l).length ≤ l.length := by
  calc (trimChars l).length
      ≤ ((l.reverse.dropWhile isWsChar).reverse).length := length_dropWhile_le _ _
    _ = (l.reverse.dropWhile isWsChar).length := List.length_reverse _
    _ ≤ l.reverse.length := length_dropWhile_le _ _
    _ = l.length := List.length_reverse _

/-- Trimming a list that ends in a whitespace character removes at least that
character. -/
theorem trimChars_append_ws_length_le {c : Char} (hc : isWsChar c = true) (l : List Char) :
    (trimChars (l ++ [c])).length ≤ l.length := by
  have h1 : (l ++ [c]).reverse = c :: l.reverse := by simp
  have h2 : trimChars (l ++ [c]) = ((l.reverse.dropWhile isWsChar).reverse).dropWhile isWsChar := by
    rw [trimChars, h1, List.dropWhile_cons]
    simp [hc]
  rw [h2]
  calc (((l.reverse.dropWhile isWsChar).reverse).dropWhile isWsChar).length
      ≤ ((l.reverse.dropWhile isWsChar).reverse).length := length_dropWhile_le _ _
    _ = (l.reverse.dropWhile isWsChar).length := List.length_reverse _
    _ ≤ l.reverse.length := length_dropWhile_le _ _
    _ = l.length := List.length_reverse _

/-- Shape of a successful single backtracking attempt: the trimmed match fits
in `k` characters and the raw match in `k + 1`. -/
theorem tryLen_bounds {cs : List Char} {k : Nat} {m r : List Char}
    (h : tryLen cs k = some (m, r)) :
    (trimChars m).length ≤ k ∧ m.length ≤ k + 1 := by
  unfold tryLen at h
  split at h
  · rename_i hguard
    split at h
    · rename_i hdrop
      cases h
      constructor
      · exact (trimChars_length_le _).trans (by simp [List.length_take])
      · simp [List.length_take]
    · rename_i c rest hdrop
      split at h
      · rename_i hws
        cases h
        constructor
        · exact (trimChars_append_ws_length_le hws _).trans (by simp [List.length_take])
        · simp [List.length_take]
      · cases h
  · cases h

/-- Shape of a successful greedy match with budget `b`. -/
theorem matchAt_bounds {b : Nat} :
    ∀ {cs m r : List Char}, matchAt cs b = some (m, r) →
      (trimChars m).length ≤ b ∧ m.length ≤ b + 1 := by
  induction b with
  | zero => intro cs m r h; simp [matchAt] at h
  | succ b ih =>
    intro cs m r h
    simp only [matchAt] at h
    split at h
    · rename_i res heq
      cases h
      exact tryLen_bounds heq
    · obtain ⟨h1, h2⟩ := ih h
      exact ⟨h1.trans (by omega), h2.trans (by omega)⟩

/-- Every chunk produced by the global regex matcher satisfies the
per-match bounds. -/
theorem regexChunksFuel_bounds {f : Nat} :
    ∀ {cs : List Char} {b : Nat} {m : List Char}, m ∈ regexChunksFuel f cs b →
      (trimChars m).length ≤ b ∧ m.length ≤ b + 1 := by
  induction f with
  | zero => intro cs b m h; simp [regexChunksFuel] at h
  | succ f ih =>
    intro cs b m h
    cases cs with
    | nil => simp [regexChunksFuel] at h
    | cons c rest =>
      simp only [regexChunksFuel] at h
      cases hma : matchAt (c :: rest) b with
      | none =>
        rw [hma] at h
        exact ih h
      | some res =>
        obtain ⟨mm, rr⟩ := res
        rw [hma] at h
        rcases List.mem_cons.mp h with rfl | h
        · exact matchAt_bounds hma
        · exact ih h

/-- `findIdx?` returns `start + i` when position `i` is the first hit. -/
theorem findIdx?_eq_some_of_min {α : Type} (p : α → Bool) :
    ∀ (l : List α) (i s : Nat) (hi : i < l.length),
      p (l.get ⟨i, hi⟩) = true →
      (∀ j (hj : j < l.length), j < i → p (l.get ⟨j, hj⟩) = false) →
      List.findIdx? p l s = some (s + i) := by
  intro l
  induction l with
  | nil => intro i s hi; exact absurd hi (Nat.not_lt_zero i)
  | cons x xs ih =>
    intro i s hi hp hmin
    rw [List.findIdx?_cons]
    cases i with
    | zero =>
      have hx : p x = true := hp
      simp [hx]
    | succ i' =>
      have hx : p x = false := hmin 0 (by omega) (by omega)
      simp only [hx, Bool.false_eq_true, if_false]
      have hrec := ih i' (s + 1) (by simpa using hi) (by simpa using hp)
        (fun j hj hji => by
          have := hmin (j + 1) (by simpa using hj) (by omega)
          simpa using this)
      rw [hrec]
      congr 1
      omega

/-- `segActive` unfolded to its propositional form. -/
theorem segActive_eq_true_iff {t : ℚ} {s : WordSegment} :
    segActive t s = true ↔ s.start_time ≤ t ∧ t < s.end_time := by
  simp [segActive]

/-- The head of a `split('.')` result is the longest dot-free prefix. -/
theorem splitOnDot_headD (l : List Char) :
    (splitOnDot l).headD [] = l.takeWhile (fun c => c != '.') := by
  induction l with
  | nil => rfl
  | cons c rest ih =>
    by_cases hc : c = '.'
    · subst hc
      simp [splitOnDot, List.takeWhile_cons]
    · have hhead : (splitOnDot (c :: rest)).headD [] = c :: (splitOnDot rest).headD [] := by
        simp [splitOnDot, hc]
      rw [hhead, ih, List.takeWhile_cons]
      simp [hc]

/-- The sequential export loop aborts as soon as any chunk's image generation
fails. -/
theorem exportLoop_eq_none (oracle : Nat → Option String) :
    ∀ (chunks : List String) (start : Nat),
      (∃ i, i < chunks.length ∧ oracle (start + i) = none) →
      exportLoop oracle chunks start = none := by
  intro chunks
  induction chunks with
  | nil =>
    intro start h
    obtain ⟨i, hi, _⟩ := h
    simp at hi
  | cons c rest ih =>
    intro start h
    obtain ⟨i, hi, ho⟩ := h
    simp only [exportLoop]
    cases hoc : oracle start with
    | none => rfl
    | some img =>
      cases i with
      | zero =>
        rw [Nat.add_zero] at ho
        rw [ho] at hoc
        cases hoc
      | succ i' =>
        have hrec : exportLoop oracle rest (start + 1) = none := by
          apply ih
          exact ⟨i', by simpa using hi, by rw [← ho]; congr 1; omega⟩
        rw [hrec]

/-! ## Claims -/

/-- C1 (amended): the character-budget chunker `transcript.match(/.{1,b}(\s|$)/g)`
greedily takes up to `b` characters ending at a whitespace character (kept in
the raw match) or at the end of the string, keeping the last partial group;
on the space-joined words `["hello","world","foo","bar"]` with budget 10 it
yields the raw chunks `["hello ", "world foo ", "bar"]`, i.e. the trimmed
slide texts `["hello", "world foo", "bar"]` — not `["hello world", "foo bar"]`
(the latter would even exceed the budget, `"hello world"` being 11
characters). -/
theorem c1_budget10_chunks :
    chunkTranscript "hello world foo bar" 10 = ["hello ", "world foo ", "bar"] ∧
    trimmedChunks "hello world foo bar" 10 = ["hello", "world foo", "bar"] := by
  decide

/-- C1 (counterexample): chunking `"hello world foo bar"` with budget 10 does
not produce `["hello world", "foo bar"]`, neither raw nor trimmed. -/
theorem c1_budget10_counterexample :
    trimmedChunks "hello world foo bar" 10 ≠ ["hello world", "foo bar"] ∧
    chunkTranscript "hello world foo bar" 10 ≠ ["hello world", "foo bar"] := by
  decide

/-- C2 (amended): when image generation fails for any chunk, the whole
PowerPoint export aborts: the thrown error reaches the surrounding `catch`,
the status becomes `error`, the export-failure message is surfaced and no
deck is written.  There is no per-slide fallback visual and the remaining
chunks are not processed. -/
theorem c2_exportAborts (d : TranscriptData) (oracle : Nat → Option String)
    (h : ∃ i, i < (chunkTranscript d.transcript 150).length ∧ oracle i = none) :
    (handleExport d oracle).1 = Status.error ∧
    (handleExport d oracle).2.1 = some "Failed to generate PowerPoint. Please try again." ∧
    (handleExport d oracle).2.2 = none := by
  have hnone : exportLoop oracle (chunkTranscript d.transcript 150) 0 = none := by
    apply exportLoop_eq_none
    obtain ⟨i, hi, ho⟩ := h
    exact ⟨i, hi, by simpa using ho⟩
  unfold handleExport
  rw [hnone]
  exact ⟨rfl, rfl, rfl⟩

/-- C2 (witness): a concrete one-chunk export whose image generation fails
ends in the error state with no deck. -/
theorem c2_exportAborts_witness :
    (handleExport ⟨"hello world", []⟩ (fun _ => none)).1 = Status.error ∧
    (handleExport ⟨"hello world", []⟩ (fun _ => none)).2.1 =
      some "Failed to generate PowerPoint. Please try again." ∧
    (handleExport ⟨"hello world", []⟩ (fun _ => none)).2.2 = none :=
  c2_exportAborts ⟨"hello world", []⟩ (fun _ => none) ⟨0, by decide, rfl⟩

/-- C2 (counterexample): with a single chunk whose enrichment fails, the
export does not fall back and continue — it ends in the error state with the
failure surfaced and no deck produced. -/
theorem c2_exportAborts_counterexample :
    handleExport ⟨"hello", []⟩ (fun _ => none) =
      (Status.error, some "Failed to generate PowerPoint. Please try again.", none) := by
  decide

/-- C3: for a word-segment list sorted by start time with pairwise
non-overlapping half-open intervals, the active-word lookup returns `none`
when the query time lies in no interval, and returns exactly the index of the
(necessarily unique) segment whose half-open interval contains the query
time. -/
theorem c3_activeSegmentIndex (segs : List WordSegment) (t : ℚ)
    (hsort : List.Pairwise (fun a b => a.start_time ≤ b.start_time) segs)
    (hdisj : List.Pairwise (fun a b => a.end_time ≤ b.start_time) segs) :
    ((∀ i (hi : i < segs.length), segActive t (segs.get ⟨i, hi⟩) = false) →
      activeSegmentIndex segs t = none) ∧
    (∀ i (hi : i < segs.length), segActive t (segs.get ⟨i, hi⟩) = true →
      activeSegmentIndex segs t = some i) := by
  constructor
  · intro hall
    rw [activeSegmentIndex, List.findIdx?_eq_none_iff]
    intro x hx
    obtain ⟨⟨j, hj⟩, rfl⟩ := List.mem_iff_get.mp hx
    exact hall j hj
  · intro i hi hact
    have hd := List.pairwise_iff_get.mp hdisj
    have hstart : (segs.get ⟨i, hi⟩).start_time ≤ t := (segActive_eq_true_iff.mp hact).1
    have hmin : ∀ j (hj : j < segs.length), j < i →
        segActive t (segs.get ⟨j, hj⟩) = false := by
      intro j hj hji
      have hle : (segs.get ⟨j, hj⟩).end_time ≤ (segs.get ⟨i, hi⟩).start_time :=
        hd ⟨j, hj⟩ ⟨i, hi⟩ hji
      rw [Bool.eq_false_iff, Ne, segActive_eq_true_iff]
      rintro ⟨h3, h4⟩
      linarith
    have := findIdx?_eq_some_of_min (segActive t) segs i 0 hi hact hmin
    simpa [activeSegmentIndex] using this

/-- C3 (witness): on the two non-overlapping segments `[0,1)` and `[1,2)`,
time `1` selects index `1` and time `5` selects nothing. -/
theorem c3_activeSegmentIndex_witness :
    activeSegmentIndex [⟨"a", 0, 1⟩, ⟨"b", 1, 2⟩] 1 = some 1 ∧
    activeSegmentIndex [⟨"a", 0, 1⟩, ⟨"b", 1, 2⟩] 5 = none := by
  constructor
  · exact (c3_activeSegmentIndex [⟨"a", 0, 1⟩, ⟨"b", 1, 2⟩] 1 (by decide) (by decide)).2 1
      (by decide) (by decide)
  · exact (c3_activeSegmentIndex [⟨"a", 0, 1⟩, ⟨"b", 1, 2⟩] 5 (by decide) (by decide)).1
      (by decide)

set_option maxHeartbeats 2000000 in
/-- C4: for `N` 16-bit PCM samples the WAV wrapper produced by
`handleGenerateAudio` is exactly `44 + 2N` bytes; bytes 0–3 read `RIFF`,
bytes 8–11 read `WAVE`, the header declares audio format 1 (PCM), 1 channel,
a 24000 Hz sample rate and 16 bits per sample, and the `data` subchunk size
field holds `N * 2` (the size field is 32 bits, whence the fitting
hypothesis). -/
theorem c4_wavFormat (pcm : List Int) (h : pcm.length * 2 < 4294967296) :
    (wavBytes pcm).length = 44 + 2 * pcm.length ∧
    (wavBytes pcm).take 4 = [0x52, 0x49, 0x46, 0x46] ∧
    ((wavBytes pcm).drop 8).take 4 = [0x57, 0x41, 0x56, 0x45] ∧
    decodeLE16 (((wavBytes pcm).drop 20).take 2) = 1 ∧
    decodeLE16 (((wavBytes pcm).drop 22).take 2) = 1 ∧
    decodeLE32 (((wavBytes pcm).drop 24).take 4) = 24000 ∧
    decodeLE16 (((wavBytes pcm).drop 34).take 2) = 16 ∧
    decodeLE32 (((wavBytes pcm).drop 40).take 4) = pcm.length * 2 := by
  refine ⟨?_, rfl, rfl, ?_, ?_, ?_, ?_, ?_⟩
  · have hh : (wavHeader (pcm.length * 2)).length = 44 := rfl
    have hp : ∀ l : List Int, (pcmBytes l).length = 2 * l.length := by
      intro l
      induction l with
      | nil => rfl
      | cons x rest ih =>
        simp [pcmBytes, int16LEBytes, le16, ih]
        omega
    show (wavHeader (pcm.length * 2) ++ pcmBytes pcm).length = 44 + 2 * pcm.length
    rw [List.length_append, hh, hp]
  · have h20 : ((wavBytes pcm).drop 20).take 2 = [1 % 256, 1 / 256 % 256] := rfl
    rw [h20]
    rfl
  · have h22 : ((wavBytes pcm).drop 22).take 2 = [1 % 256, 1 / 256 % 256] := rfl
    rw [h22]
    rfl
  · have h24 : ((wavBytes pcm).drop 24).take 4 =
        [24000 % 256, 24000 / 256 % 256, 24000 / 65536 % 256, 24000 / 16777216 % 256] := rfl
    rw [h24]
    rfl
  · have h34 : ((wavBytes pcm).drop 34).take 2 = [16 % 256, 16 / 256 % 256] := rfl
    rw [h34]
    rfl
  · have h40 : ((wavBytes pcm).drop 40).take 4 =
        [pcm.length * 2 % 256, pcm.length * 2 / 256 % 256,
         pcm.length * 2 / 65536 % 256, pcm.length * 2 / 16777216 % 256] := rfl
    rw [h40]
    show pcm.length * 2 % 256 + 256 * (pcm.length * 2 / 256 % 256) +
        65536 * (pcm.length * 2 / 65536 % 256) +
        16777216 * (pcm.length * 2 / 16777216 % 256) = pcm.length * 2
    omega

/-- C4 (witness): the wrapper of the two samples `[1, -1]` has length
`44 + 2 * 2`. -/
theorem c4_wavFormat_witness :
    (wavBytes [1, -1]).length = 44 + 2 * ([1, -1] : List Int).length :=
  (c4_wavFormat [1, -1] (by norm_num)).1

/-- C5 (amended): the auto-scroll fires exactly when a transcript is present,
some segment is active at the tick time, its rendered span is found, and the
span's box is not fully inside the container's vertical bounds (the source
insets by no margin).  The decision is a pure function of the current tick's
inputs — the effect keeps no previous-index state, so it is *not* suppressed
on a tick whose active index is unchanged from the previous tick. -/
theorem c5_scrollCharacterization (td : Option TranscriptData) (t : ℚ)
    (er : Nat → Option Rect) (cr : Rect) :
    scrollFires td t er cr = true ↔
      ∃ d i r, td = some d ∧ activeSegmentIndex d.word_segments t = some i ∧
        er i = some r ∧ (r.top < cr.top ∨ r.bottom > cr.bottom) := by
  unfold scrollFires
  cases td with
  | none => simp
  | some d =>
    cases hai : activeSegmentIndex d.word_segments t with
    | none => simp [hai]
    | some i =>
      cases her : er i with
      | none => simp [hai, her]
      | some r => simp [hai, her]

/-- C5 (counterexample): two consecutive ticks with the same active index and
the same out-of-view geometry both fire the scroll — the effect is not silent
when the active index is unchanged. -/
theorem c5_counterexample :
    activeIdxOf (some ⟨"a", [⟨"a", 0, 10⟩]⟩) 1 = activeIdxOf (some ⟨"a", [⟨"a", 0, 10⟩]⟩) 2 ∧
    scrollFires (some ⟨"a", [⟨"a", 0, 10⟩]⟩) 1 (fun _ => some ⟨-1, 5⟩) ⟨0, 100⟩ = true ∧
    scrollFires (some ⟨"a", [⟨"a", 0, 10⟩]⟩) 2 (fun _ => some ⟨-1, 5⟩) ⟨0, 100⟩ = true := by
  decide

/-- C6 (amended): the transcript download is named after the portion of the
original file name *before the first dot* (`name.split('.')[0]`), followed by
`_transcript.txt`, and its content is exactly the transcript's full text. -/
theorem c6_downloadName (name : List Char) (td : TranscriptData) :
    downloadFileName name = name.takeWhile (fun c => c != '.') ++ "_transcript.txt".data ∧
    downloadContent td = td.transcript :=
  ⟨by rw [downloadFileName, splitOnDot_headD], rfl⟩

/-- C6 (counterexample): for the upload `my.song.mp3` the download is named
`my_transcript.txt`, not `my.song_transcript.txt`. -/
theorem c6_downloadName_counterexample :
    downloadFileName "my.song.mp3".data ≠ "my.song".data ++ "_transcript.txt".data ∧
    downloadFileName "my.song.mp3".data = "my_transcript.txt".data := by
  decide

/-- C7: whatever the outcome of the chord-detection call — missing key,
API failure, or any reply — the error state is untouched (failures are only
logged) and `handleFile` still ends in the `done` status after a successful
transcription. -/
theorem c7_chordsNeverBlock (s : AppState) (o : ChordOutcome) :
    (afterTranscription s o).status = Status.done ∧
    (afterTranscription s o).error = s.error := by
  refine ⟨rfl, ?_⟩
  show (detectChordsModel s o).error = s.error
  cases o with
  | missingKey => rfl
  | apiFailure => rfl
  | success txt =>
    dsimp only [detectChordsModel]
    split <;> rfl

/-- C8: `resetState` restores every state field to its initial value — in
particular the clock is back at `0` and, the transcript being cleared, the
active-segment lookup answers `none` at every query time. -/
theorem c8_resetClears (s : AppState) (t : ℚ) :
    resetState s = initState ∧ (resetState s).currentTime = 0 ∧
    activeIdxOf (resetState s).transcriptData t = none :=
  ⟨rfl, rfl, rfl⟩

/-- C9: the empty transcript yields zero chunks from the 150-character
chunker and an active-segment lookup of `none` at every query time. -/
theorem c9_emptyTranscript (t : ℚ) :
    chunkTranscript "" 150 = [] ∧ activeIdxOf (some ⟨"", []⟩) t = none :=
  ⟨rfl, rfl⟩

/-- C10: every chunk of the 150-character chunker trims to at most 150
characters, each raw match being at most 150 `.`-matchable characters plus at
most one trailing whitespace character (hence at most 151 characters raw). -/
theorem c10_chunkTrimBound (s : String) (m : String) (h : m ∈ chunkTranscript s 150) :
    (String.mk (trimChars m.data)).length ≤ 150 ∧ m.length ≤ 151 := by
  rw [chunkTranscript] at h
  obtain ⟨l, hl, rfl⟩ := List.mem_map.mp h
  rw [regexChunks] at hl
  obtain ⟨h1, h2⟩ := regexChunksFuel_bounds hl
  exact ⟨h1, h2⟩

/-- C10 (witness): the single chunk of `"hello"` satisfies both bounds. -/
theorem c10_chunkTrimBound_witness :
    (String.mk (trimChars ("hello" : String).data)).length ≤ 150 ∧
    ("hello" : String).length ≤ 151 :=
  c10_chunkTrimBound "hello" "hello" (by decide)
